import Mathlib

/-!
Verification of the single-file form application `src/dmp_streamlit_app.py`.

Strings are modelled as `List Char`. The pure helpers of the source
(`word_count`, `text_section`, `break_long_tokens`) are translated as
executable functions on character lists; the Streamlit UI only supplies the
raw text of each field, so a UI-reading helper becomes a function of that
text. The PDF backend (fpdf2) is modelled as a trace of layout operations
plus an error monad for the font-registration calls; the wall-clock
timestamp read inside `build_pdf_bytes` is made an explicit argument.
-/

set_option autoImplicit false
set_option maxRecDepth 10000

namespace DMP

/-- Characters that Python treats as whitespace for `str.split()`, `str.strip()`
and the regex class `\S` (ASCII whitespace, the information separators, and the
common Unicode space characters). -/
def pySpace (c : Char) : Bool :=
  c == ' ' || c == '\t' || c == '\n' || c == '\r' || c == '\u000B' || c == '\u000C' ||
  c == '\u001C' || c == '\u001D' || c == '\u001E' || c == '\u001F' ||
  c == '\u0085' || c == '\u00A0' || c == '\u1680' ||
  decide (0x2000 ≤ c.toNat ∧ c.toNat ≤ 0x200A) ||
  c == '\u2028' || c == '\u2029' || c == '\u202F' || c == '\u205F' || c == '\u3000'

/-- Accumulator pass behind Python's `text.split()`: `cur` is the maximal run of
non-whitespace characters read so far and still open; a whitespace character or
the end of the string closes it. Whitespace-only input yields no tokens. -/
def splitAux : List Char → List Char → List (List Char)
  | cur, [] => if cur = [] then [] else [cur]
  | cur, c :: cs =>
    if pySpace c then
      if cur = [] then splitAux [] cs else cur :: splitAux [] cs
    else
      splitAux (cur ++ [c]) cs

/-- Python's `text.split()` (no separator argument): the list of maximal runs of
non-whitespace characters, in order. -/
def pySplit (l : List Char) : List (List Char) := splitAux [] l

/-- Source line 25: `def word_count(text): return len(text.split())`. -/
def word_count (text : List Char) : Nat := (pySplit text).length

/-- Source lines 28-35: `text_section` reads the field's text from the UI,
computes the word count and the per-section flag `ok = wc <= max_words`, and
returns `(text, ok)`. The UI read is modelled by taking `text` as an argument;
the `st.caption`/`st.warning` calls only display and do not affect the result. -/
def text_section (text : List Char) (max_words : Nat) : List Char × Bool :=
  (text, decide (word_count text ≤ max_words))

/-- Single pass behind source lines 37-42. The regex substitution
`re.sub(rf"\S{maxlen+1,}", breaker, s)` replaces every maximal run of more than
`maxlen` non-whitespace characters by its `maxlen`-sized slices joined with
single spaces; equivalently, walking the string left to right with `k` = the
number of characters emitted in the current slice, a space is inserted exactly
before each character that would make a slice of length `m + 1`. A run of at
most `m` characters never reaches `k = m` with another run character pending,
so it is left untouched, as in the source. -/
def bltAux (m : Nat) : Nat → List Char → List Char
  | _, [] => []
  | k, c :: cs =>
    if pySpace c then c :: bltAux m 0 cs
    else if k < m then c :: bltAux m (k + 1) cs
    else ' ' :: c :: bltAux m 1 cs

/-- Source lines 37-42: `break_long_tokens(s, maxlen=80)`. The Python guard
`s or ""` maps `None` (and the empty string) to the empty string, modelled by
an `Option` argument. -/
def break_long_tokens (s : Option (List Char)) (maxlen : Nat) : List Char :=
  bltAux maxlen 0 (match s with | none => [] | some t => t)

/-- Python's `text.strip()`: drop whitespace from both ends. -/
def pyStrip (l : List Char) : List Char :=
  ((l.dropWhile (fun c => pySpace c)).reverse.dropWhile (fun c => pySpace c)).reverse

/-- Property definition used to state what the rewrap guarantees: reading the
string with `k` non-whitespace characters already in the current run, every
maximal run of non-whitespace characters stays within `m` characters. -/
def runsBoundedAux (m : Nat) : Nat → List Char → Bool
  | _, [] => true
  | k, c :: cs =>
    if pySpace c then runsBoundedAux m 0 cs
    else decide (k < m) && runsBoundedAux m (k + 1) cs

/-- Helper for the spec-side count of maximal runs; the flag records whether the
previous character was part of a run of non-whitespace characters. -/
def spec_countRunsAux : Bool → List Char → Nat
  | _, [] => 0
  | inRun, c :: cs =>
    if pySpace c then spec_countRunsAux false cs
    else if inRun then spec_countRunsAux true cs else 1 + spec_countRunsAux true cs

/-- Spec-side definition, following the spec's words for the word count: the
number of maximal runs of non-whitespace characters of the string (splitting on
runs of whitespace, ignoring leading and trailing whitespace). -/
def spec_countMaximalRuns (l : List Char) : Nat := spec_countRunsAux false l

/-! ### The form aggregate (source lines 98-139) -/

/-- Source lines 100-137: the list `oks` collected by the form body. Fields 1-5
carry a 150-word limit, fields 7-10 a 50-word limit; for the Topic Ranking field
(field 6) the script appends the constant `True` and never validates its text,
so `b6` is taken but not consulted. -/
def oks (b1 b2 b3 b4 b5 : List Char) (_b6 : List Char) (b7 b8 b9 b10 : List Char) :
    List Bool :=
  [(text_section b1 150).2, (text_section b2 150).2, (text_section b3 150).2,
   (text_section b4 150).2, (text_section b5 150).2, true,
   (text_section b7 50).2, (text_section b8 50).2, (text_section b9 50).2,
   (text_section b10 50).2]

/-- Source line 139: `within_limits = all(oks)`. -/
def within_limits (b1 b2 b3 b4 b5 b6 b7 b8 b9 b10 : List Char) : Bool :=
  (oks b1 b2 b3 b4 b5 b6 b7 b8 b9 b10).all id

/-! ### The PDF renderer (source lines 44-95)

The fpdf2 backend is modelled as the trace of layout calls the source makes,
together with an error monad for the font calls. The library contract being
modelled: `add_font` raises when the font file is absent
(`FileNotFoundError`) and, in older versions, when the family is already
registered; `set_font` raises (`FPDFException`) when the requested family is
neither registered nor a built-in core font. `DejaVu` is not a core font, so
`set_font` on it succeeds exactly when registration succeeded earlier or the
family was already registered. -/

/-- Fixed strings of the renderer. -/
def titleText : List Char := "Data Management Plan Submission".toList

/-- Label preceding the timestamp on the generation line (source line 74). -/
def generatedLabel : List Char := "Generated: ".toList

/-- Placeholder used for an empty or whitespace-only body (source line 84). -/
def placeholderText : List Char := "[No response provided]".toList

/-- Font family name registered and used by the renderer. -/
def dejavuName : List Char := "DejaVu".toList

/-- Wall-clock instant read by `datetime.now()`, made explicit. -/
structure Timestamp where
  year : Nat
  month : Nat
  day : Nat
  hour : Nat
  minute : Nat
deriving DecidableEq

/-- Zero-pad a number to at least two digits, as the `%m`, `%d`, `%H`, `%M`
format directives do. -/
def pad2 (n : Nat) : List Char :=
  let d := Nat.toDigits 10 n
  if d.length < 2 then '0' :: d else d

/-- Zero-pad a number to at least four digits, as the `%Y` directive does. -/
def pad4 (n : Nat) : List Char :=
  let d := Nat.toDigits 10 n
  List.replicate (4 - d.length) '0' ++ d

/-- Source line 74 format string `%Y-%m-%d %H:%M`. -/
def formatTimestamp (t : Timestamp) : List Char :=
  pad4 t.year ++ '-' :: (pad2 t.month ++ '-' :: (pad2 t.day ++
    ' ' :: (pad2 t.hour ++ ':' :: pad2 t.minute)))

/-- Text-carrying layout calls issued by `build_pdf_bytes`, in order. -/
inductive PdfOp where
  | setFont (family : List Char) (size : Nat)
  | cellCentered (text : List Char)
  | cellLeft (text : List Char)
  | multiCell (text : List Char)
  | lnGap (n : Nat)
deriving DecidableEq

/-- Errors of the modelled fpdf2 font calls. -/
inductive PdfError where
  | missingFontAsset
  | duplicateFont
  | undefinedFont
deriving DecidableEq

/-- Modelled fpdf2 `add_font`: raises when the font file is missing; raises on a
duplicate registration (the benign case the source's guard is written for);
otherwise registers the family. -/
def add_font (assetPresent : Bool) (registered : List (List Char))
    (family : List Char) : Except PdfError (List (List Char)) :=
  if assetPresent = false then Except.error PdfError.missingFontAsset
  else if family ∈ registered then Except.error PdfError.duplicateFont
  else Except.ok (family :: registered)

/-- Source lines 54-58: `try: pdf.add_font(...) except Exception: pass` — every
`add_font` failure is swallowed and the registered-family state is unchanged. -/
def add_font_guarded (assetPresent : Bool) (registered : List (List Char))
    (family : List Char) : List (List Char) :=
  match add_font assetPresent registered family with
  | Except.ok r => r
  | Except.error _ => registered

/-- Modelled fpdf2 `set_font`: fails when the family is not registered (DejaVu
is not one of the built-in core fonts). -/
def set_font (registered : List (List Char)) (family : List Char) :
    Except PdfError Unit :=
  if family ∈ registered then Except.ok () else Except.error PdfError.undefinedFont

/-- Python's falsy-`or` on strings: the left operand unless it is empty. -/
def strOrElse (l d : List Char) : List Char := if l = [] then d else l

/-- Source lines 84-85: the body text actually laid out for a section —
`(content or "").strip() or "[No response provided]"`, then
`break_long_tokens(body, maxlen=80)`. -/
def sectionBody (content : List Char) : List Char :=
  break_long_tokens (some (strOrElse (pyStrip content) placeholderText)) 80

/-- Source lines 66-75: the fixed header block — title cell centered, then the
generation line. The `ln=True` line advances are part of the cells; the extra
`pdf.ln(2)` gaps are recorded. -/
def headerOps (now : Timestamp) : List PdfOp :=
  [PdfOp.setFont dejavuName 12, PdfOp.cellCentered titleText, PdfOp.lnGap 2,
   PdfOp.setFont dejavuName 10, PdfOp.cellLeft (generatedLabel ++ formatTimestamp now),
   PdfOp.lnGap 2]

/-- Source lines 78-88: one block of five layout calls per section, in input
order (Python dicts iterate in insertion order). -/
def sectionOps : List (List Char × List Char) → List PdfOp
  | [] => []
  | tc :: rest =>
    PdfOp.setFont dejavuName 11 :: PdfOp.multiCell tc.1 ::
    PdfOp.setFont dejavuName 10 :: PdfOp.multiCell (sectionBody tc.2) ::
    PdfOp.lnGap 1 :: sectionOps rest

/-- Source lines 47-95: `build_pdf_bytes`. The state an invocation starts from
is the presence of the font asset on disk and the families already registered
on the `FPDF` object; the first `set_font` call raises out of the function when
`DejaVu` is unregistered, and every later `set_font` call names the same
family, so one membership test decides them all. On success the result is the
trace of layout calls, which the backend serialises to bytes. -/
def build_pdf_bytes (assetPresent : Bool) (preRegistered : List (List Char))
    (sections : List (List Char × List Char)) (now : Timestamp) :
    Except PdfError (List PdfOp) :=
  let registered := add_font_guarded assetPresent preRegistered dejavuName
  match set_font registered dejavuName with
  | Except.error e => Except.error e
  | Except.ok _ => Except.ok (headerOps now ++ sectionOps sections)

/-! ### Lemmas about splitting and counting -/

theorem splitAux_length : ∀ (l : List Char),
    ((splitAux [] l).length = spec_countRunsAux false l) ∧
    (∀ (d : Char) (ds : List Char),
      (splitAux (d :: ds) l).length = spec_countRunsAux true l + 1) := by
  intro l
  induction l with
  | nil => constructor <;> simp [splitAux, spec_countRunsAux]
  | cons c cs ih =>
    obtain ⟨ih1, ih2⟩ := ih
    by_cases hc : pySpace c
    · constructor
      · simp [splitAux, hc, spec_countRunsAux, ih1]
      · intro d ds
        simp [splitAux, hc, spec_countRunsAux, ih1]
    · constructor
      · have h := ih2 c []
        simp [splitAux, hc, spec_countRunsAux]
        omega
      · intro d ds
        simpa [splitAux, hc, spec_countRunsAux] using ih2 d (ds ++ [c])

/-- Every run of non-whitespace characters in the output of the rewrap stays
within `m` characters, provided at most `m` characters of the current run have
already been emitted. -/
theorem bltAux_runsBounded {m : Nat} (hm : 1 ≤ m) :
    ∀ (l : List Char) (k : Nat), k ≤ m →
      runsBoundedAux m k (bltAux m k l) = true := by
  intro l
  induction l with
  | nil => intro k _; simp [bltAux, runsBoundedAux]
  | cons c cs ih =>
    intro k hk
    by_cases hc : pySpace c
    · have h1 : bltAux m k (c :: cs) = c :: bltAux m 0 cs := by simp [bltAux, hc]
      have h2 : ∀ r, runsBoundedAux m k (c :: r) = runsBoundedAux m 0 r := by
        intro r; simp [runsBoundedAux, hc]
      rw [h1, h2]
      exact ih 0 (Nat.zero_le m)
    · by_cases hkm : k < m
      · have h1 : bltAux m k (c :: cs) = c :: bltAux m (k + 1) cs := by
          simp [bltAux, hc, hkm]
        have h2 : ∀ r, runsBoundedAux m k (c :: r) =
            (decide (k < m) && runsBoundedAux m (k + 1) r) := by
          intro r; simp [runsBoundedAux, hc]
        rw [h1, h2, Bool.and_eq_true, decide_eq_true_eq]
        exact ⟨hkm, ih (k + 1) hkm⟩
      · have hsp : pySpace ' ' = true := by decide
        have h1 : bltAux m k (c :: cs) = ' ' :: c :: bltAux m 1 cs := by
          simp [bltAux, hc, hkm]
        have h2 : ∀ r, runsBoundedAux m k (' ' :: c :: r) =
            (decide (0 < m) && runsBoundedAux m 1 r) := by
          intro r; simp [runsBoundedAux, hsp, hc]
        rw [h1, h2, Bool.and_eq_true, decide_eq_true_eq]
        exact ⟨hm, ih 1 hm⟩

/-- On a string whose runs of non-whitespace characters are already within `m`,
the rewrap is the identity. -/
theorem bltAux_id_of_bounded (m : Nat) :
    ∀ (l : List Char) (k : Nat), runsBoundedAux m k l = true →
      bltAux m k l = l := by
  intro l
  induction l with
  | nil => intro k _; rfl
  | cons c cs ih =>
    intro k hb
    by_cases hc : pySpace c
    · simp [runsBoundedAux, hc] at hb
      simp [bltAux, hc, ih 0 hb]
    · simp [runsBoundedAux, hc] at hb
      simp [bltAux, hc, hb.1, ih (k + 1) hb.2]

/-- The rewrap only inserts space characters: filtering whitespace away gives
back the non-whitespace characters of the input, in order. -/
theorem bltAux_filter (m : Nat) :
    ∀ (l : List Char) (k : Nat),
      (bltAux m k l).filter (fun c => !pySpace c) =
        l.filter (fun c => !pySpace c) := by
  intro l
  induction l with
  | nil => intro k; rfl
  | cons c cs ih =>
    intro k
    by_cases hc : pySpace c
    · simp [bltAux, hc, List.filter, ih 0]
    · by_cases hkm : k < m
      · simp [bltAux, hc, hkm, List.filter, ih (k + 1)]
      · have hsp : pySpace ' ' = true := by decide
        simp [bltAux, hc, hkm, List.filter, hsp, ih 1]

/-- The first token produced from a nonempty open run extends that run. -/
theorem splitAux_first_long :
    ∀ (cs d : List Char), d ≠ [] →
      ∃ t, t ∈ splitAux d cs ∧ d.length ≤ t.length := by
  intro cs
  induction cs with
  | nil =>
    intro d hd
    exact ⟨d, by simp [splitAux, hd], Nat.le_refl _⟩
  | cons c cs ih =>
    intro d hd
    by_cases hc : pySpace c
    · exact ⟨d, by simp [splitAux, hc, hd], Nat.le_refl _⟩
    · obtain ⟨t, ht, hlen⟩ := ih (d ++ [c]) (by simp)
      refine ⟨t, ?_, ?_⟩
      · simpa [splitAux, hc] using ht
      · calc d.length ≤ (d ++ [c]).length := by simp
          _ ≤ t.length := hlen

/-- Bridge between the streaming bound and the tokens of `splitAux`: with `cur`
the open run, the streaming check succeeds exactly when every token is within
`m`. -/
theorem runsBounded_iff_split (m : Nat) :
    ∀ (l cur : List Char), cur.length ≤ m →
      (runsBoundedAux m cur.length l = true ↔
        ∀ t ∈ splitAux cur l, t.length ≤ m) := by
  intro l
  induction l with
  | nil =>
    intro cur hcur
    by_cases hc : cur = [] <;> simp [runsBoundedAux, splitAux, hc, hcur]
  | cons c cs ih =>
    intro cur hcur
    have ih0 := ih [] (Nat.zero_le m)
    simp only [List.length_nil] at ih0
    by_cases hc : pySpace c
    · have h1 : runsBoundedAux m cur.length (c :: cs) = runsBoundedAux m 0 cs := by
        simp [runsBoundedAux, hc]
      by_cases hn : cur = []
      · have h2 : splitAux cur (c :: cs) = splitAux [] cs := by
          simp [splitAux, hc, hn]
        rw [h1, h2, ih0]
      · have h2 : splitAux cur (c :: cs) = cur :: splitAux [] cs := by
          simp [splitAux, hc, hn]
        rw [h1, h2, ih0]
        constructor
        · intro h t ht
          rcases List.mem_cons.mp ht with rfl | ht2
          · exact hcur
          · exact h t ht2
        · intro h t ht
          exact h t (List.mem_cons.mpr (Or.inr ht))
    · have h1 : runsBoundedAux m cur.length (c :: cs) =
          (decide (cur.length < m) && runsBoundedAux m (cur.length + 1) cs) := by
        simp [runsBoundedAux, hc]
      have h2 : splitAux cur (c :: cs) = splitAux (cur ++ [c]) cs := by
        simp [splitAux, hc]
      by_cases hkm : cur.length < m
      · have hih := ih (cur ++ [c]) (by simp; omega)
        have hlen : (cur ++ [c]).length = cur.length + 1 := by simp
        rw [hlen] at hih
        rw [h1, h2, decide_eq_true hkm, Bool.true_and]
        exact hih
      · have hk : cur.length = m := by omega
        rw [h1, h2, decide_eq_false hkm, Bool.false_and]
        constructor
        · intro h
          exact (Bool.false_ne_true h).elim
        · intro h
          obtain ⟨t, ht, hlen2⟩ := splitAux_first_long cs (cur ++ [c]) (by simp)
          have h3 : t.length ≤ m := h t ht
          have h4 : (cur ++ [c]).length ≤ m := Nat.le_trans hlen2 h3
          simp only [List.length_append, List.length_cons, List.length_nil] at h4
          omega

/-- Idempotence of the rewrap core, via the two lemmas above. -/
theorem bltAux_idem {m : Nat} (hm : 1 ≤ m) (s : List Char) :
    bltAux m 0 (bltAux m 0 s) = bltAux m 0 s :=
  bltAux_id_of_bounded m (bltAux m 0 s) 0 (bltAux_runsBounded hm s 0 (Nat.zero_le m))

/-- Tokens of the rewrapped string are within the threshold. -/
theorem pySplit_break_le {m : Nat} (hm : 1 ≤ m) (s : List Char) :
    ∀ t ∈ pySplit (bltAux m 0 s), t.length ≤ m := by
  have h0 : (([] : List Char)).length ≤ m := Nat.zero_le m
  have := (runsBounded_iff_split m (bltAux m 0 s) [] h0).mp
  exact this (bltAux_runsBounded hm s 0 (Nat.zero_le m))

/-! ### The claims about the validator -/

/-- C1: for every section with word limit `k` and every body text, the
per-section `ok` flag is `true` iff the word count is at most `k`; a body of
exactly `k` words yields `ok = true` and one of `k + 1` words `ok = false`. -/
theorem word_limit_ok_iff :
    ∀ (body : List Char) (k : Nat),
      ((text_section body k).2 = true ↔ word_count body ≤ k)
      ∧ (word_count body = k → (text_section body k).2 = true)
      ∧ (word_count body = k + 1 → (text_section body k).2 = false) := by
  intro body k
  refine ⟨?_, ?_, ?_⟩
  · simp [text_section]
  · intro h
    simp [text_section, h]
  · intro h
    simp only [text_section, h, decide_eq_false_iff_not]
    omega

/-- Witness for C1: a two-word body against limits 2 and 1. -/
theorem word_limit_ok_iff_witness :
    (text_section ("a b".toList) 2).2 = true ∧
      (text_section ("a b".toList) 1).2 = false :=
  ⟨(word_limit_ok_iff ("a b".toList) 2).2.1 (by decide),
   (word_limit_ok_iff ("a b".toList) 1).2.2 (by decide)⟩

/-- C2: `word_count` equals the number of maximal runs of non-whitespace
characters (splitting on runs of whitespace, ignoring leading and trailing
whitespace); in particular the three boundary examples of the spec. -/
theorem word_count_counts_maximal_runs :
    (∀ s : List Char, word_count s = spec_countMaximalRuns s)
    ∧ word_count ("".toList) = 0
    ∧ word_count ("  a   b  ".toList) = 2
    ∧ word_count ("one".toList) = 1 := by
  refine ⟨?_, by decide, by decide, by decide⟩
  intro s
  exact (splitAux_length s).1

/-- C7: exceeding the word limit is reported as data, not as an error: on an
over-limit body the validator still returns its input text together with
`ok = false`; it is a total function of its two arguments. -/
theorem over_limit_reported_as_data :
    ∀ (text : List Char) (k : Nat), k < word_count text →
      text_section text k = (text, false) := by
  intro text k h
  simp only [text_section, Prod.mk.injEq, true_and, decide_eq_false_iff_not]
  omega

/-- Witness for C7: a two-word body against limit 1. -/
theorem over_limit_reported_as_data_witness :
    text_section ("a b".toList) 1 = (("a b".toList), false) :=
  over_limit_reported_as_data ("a b".toList) 1 (by decide)

/-- C3: the aggregate flag is the conjunction of the nine bounded sections'
`ok` flags; it is `false` iff some bounded section exceeds its limit, and it
does not depend on the Topic Ranking text `b6`. -/
theorem within_limits_iff_all_sections_ok :
    ∀ b1 b2 b3 b4 b5 b6 b6' b7 b8 b9 b10 : List Char,
      (within_limits b1 b2 b3 b4 b5 b6 b7 b8 b9 b10 =
        ((text_section b1 150).2 && ((text_section b2 150).2 && ((text_section b3 150).2 &&
          ((text_section b4 150).2 && ((text_section b5 150).2 && ((text_section b7 50).2 &&
          ((text_section b8 50).2 && ((text_section b9 50).2 && (text_section b10 50).2)))))))))
      ∧ (within_limits b1 b2 b3 b4 b5 b6 b7 b8 b9 b10 = false ↔
          (150 < word_count b1 ∨ 150 < word_count b2 ∨ 150 < word_count b3 ∨
           150 < word_count b4 ∨ 150 < word_count b5 ∨ 50 < word_count b7 ∨
           50 < word_count b8 ∨ 50 < word_count b9 ∨ 50 < word_count b10))
      ∧ within_limits b1 b2 b3 b4 b5 b6 b7 b8 b9 b10 =
          within_limits b1 b2 b3 b4 b5 b6' b7 b8 b9 b10 := by
  intro b1 b2 b3 b4 b5 b6 b6' b7 b8 b9 b10
  refine ⟨?_, ?_, rfl⟩
  · simp [within_limits, oks]
  · simp only [within_limits, oks, text_section, List.all_cons, List.all_nil,
      id_eq, Bool.true_and, Bool.and_true, Bool.and_eq_false_iff,
      decide_eq_false_iff_not, Nat.not_le]

/-! ### The claims about the rewrap -/

/-- C4: with threshold 80 the rewrap leaves every maximal run of
non-whitespace characters at most 80 characters long, deleting the whitespace
of the rewritten text yields exactly the non-whitespace characters of the
original in order, and a 200-character token becomes segments of lengths 80,
80 and 40 separated by single inserted spaces. -/
theorem break_long_tokens_segments_bounded :
    (∀ s : List Char, ∀ t ∈ pySplit (break_long_tokens (some s) 80), t.length ≤ 80)
    ∧ (∀ s : List Char,
        (break_long_tokens (some s) 80).filter (fun c => !pySpace c) =
          s.filter (fun c => !pySpace c))
    ∧ break_long_tokens (some (List.replicate 200 'a')) 80 =
        List.replicate 80 'a' ++ ' ' ::
          (List.replicate 80 'a' ++ ' ' :: List.replicate 40 'a') := by
  refine ⟨?_, ?_, by decide⟩
  · intro s
    exact pySplit_break_le (by omega) s
  · intro s
    exact bltAux_filter 80 s 0

/-- Witness for C4: the first 80-character slice of a 100-character token is a
token of the rewritten text and is within the bound. -/
theorem break_long_tokens_segments_bounded_witness :
    (List.replicate 80 'a').length ≤ 80 :=
  break_long_tokens_segments_bounded.1 (List.replicate 100 'a')
    (List.replicate 80 'a') (by decide)

/-- C10: the rewrap is idempotent for every threshold of at least one, and a
`None` or empty input yields the empty string. -/
theorem break_long_tokens_idempotent :
    (∀ (s : List Char) (m : Nat), 1 ≤ m →
      break_long_tokens (some (break_long_tokens (some s) m)) m =
        break_long_tokens (some s) m)
    ∧ (∀ m : Nat, break_long_tokens none m = [])
    ∧ (∀ m : Nat, break_long_tokens (some []) m = []) := by
  refine ⟨?_, fun m => rfl, fun m => rfl⟩
  intro s m hm
  exact bltAux_idem hm s

/-- Witness for C10: threshold 2 on a five-character token. -/
theorem break_long_tokens_idempotent_witness :
    break_long_tokens (some (break_long_tokens (some ("aaaaa".toList)) 2)) 2 =
      break_long_tokens (some ("aaaaa".toList)) 2 :=
  break_long_tokens_idempotent.1 ("aaaaa".toList) 2 (by omega)

/-! ### Lemmas about the rendered layout trace -/

/-- The body laid out for an empty or whitespace-only section is the literal
placeholder (the rewrap leaves the 22-character placeholder unchanged). -/
theorem sectionBody_of_blank (content : List Char) (h : pyStrip content = []) :
    sectionBody content = placeholderText := by
  simp only [sectionBody, strOrElse, h, if_pos]
  decide

/-- Index access past the six header calls lands in the section calls. -/
theorem append_getElem_headerOps (now : Timestamp) (X : List PdfOp) (n : Nat) :
    (headerOps now ++ X)[6 + n]? = X[n]? := by
  have hlen : (headerOps now).length = 6 := rfl
  rw [List.getElem?_append_right (by omega)]
  congr 1
  omega

/-- The heading call of the `i`-th section block carries the title verbatim. -/
theorem sectionOps_getElem_heading :
    ∀ (sections : List (List Char × List Char)) (i : Nat)
      (h : i < sections.length),
      (sectionOps sections)[5 * i + 1]? = some (PdfOp.multiCell (sections[i].1)) := by
  intro sections
  induction sections with
  | nil => intro i h; exact absurd h (by simp)
  | cons tc rest ih =>
    intro i h
    cases i with
    | zero => rfl
    | succ j =>
      have hj : j < rest.length := by simpa using h
      have hdef : sectionOps (tc :: rest) =
          [PdfOp.setFont dejavuName 11, PdfOp.multiCell tc.1,
           PdfOp.setFont dejavuName 10, PdfOp.multiCell (sectionBody tc.2),
           PdfOp.lnGap 1] ++ sectionOps rest := rfl
      rw [hdef, List.getElem?_append_right (by simp; omega)]
      have hidx : 5 * (j + 1) + 1 -
          ([PdfOp.setFont dejavuName 11, PdfOp.multiCell tc.1,
            PdfOp.setFont dejavuName 10, PdfOp.multiCell (sectionBody tc.2),
            PdfOp.lnGap 1] : List PdfOp).length = 5 * j + 1 := by
        simp; omega
      rw [hidx]
      simpa using ih j hj

/-- The body call of the `i`-th section block carries the processed body. -/
theorem sectionOps_getElem_body :
    ∀ (sections : List (List Char × List Char)) (i : Nat)
      (h : i < sections.length),
      (sectionOps sections)[5 * i + 3]? =
        some (PdfOp.multiCell (sectionBody (sections[i].2))) := by
  intro sections
  induction sections with
  | nil => intro i h; exact absurd h (by simp)
  | cons tc rest ih =>
    intro i h
    cases i with
    | zero => rfl
    | succ j =>
      have hj : j < rest.length := by simpa using h
      have hdef : sectionOps (tc :: rest) =
          [PdfOp.setFont dejavuName 11, PdfOp.multiCell tc.1,
           PdfOp.setFont dejavuName 10, PdfOp.multiCell (sectionBody tc.2),
           PdfOp.lnGap 1] ++ sectionOps rest := rfl
      rw [hdef, List.getElem?_append_right (by simp; omega)]
      have hidx : 5 * (j + 1) + 3 -
          ([PdfOp.setFont dejavuName 11, PdfOp.multiCell tc.1,
            PdfOp.setFont dejavuName 10, PdfOp.multiCell (sectionBody tc.2),
            PdfOp.lnGap 1] : List PdfOp).length = 5 * j + 3 := by
        simp; omega
      rw [hidx]
      simpa using ih j hj

/-! ### The claims about the renderer -/

/-- C5: for every submission the render succeeds and its trace is the fixed
centered title block, then the `Generated: YYYY-MM-DD HH:MM` line, then for
each section in input order a heading call with the title followed by a body
call with the processed body, where an empty or whitespace-only body is laid
out as the literal placeholder `[No response provided]`; the timestamp format
is checked on a concrete instant. -/
theorem build_pdf_document_layout :
    (∀ (sections : List (List Char × List Char)) (now : Timestamp),
      build_pdf_bytes true [] sections now =
        Except.ok (headerOps now ++ sectionOps sections))
    ∧ (∀ (sections : List (List Char × List Char)) (now : Timestamp)
        (i : Nat), ∀ h : i < sections.length,
        (headerOps now ++ sectionOps sections)[6 + 5 * i + 1]? =
          some (PdfOp.multiCell (sections[i].1))
        ∧ (headerOps now ++ sectionOps sections)[6 + 5 * i + 3]? =
          some (PdfOp.multiCell (sectionBody (sections[i].2))))
    ∧ (∀ content : List Char, pyStrip content = [] →
        sectionBody content = placeholderText)
    ∧ formatTimestamp (Timestamp.mk 2025 3 7 9 5) = "2025-03-07 09:05".toList := by
  refine ⟨fun sections now => rfl, ?_, sectionBody_of_blank, by decide⟩
  intro sections now i h
  constructor
  · rw [show 6 + 5 * i + 1 = 6 + (5 * i + 1) from by omega,
      append_getElem_headerOps now (sectionOps sections) (5 * i + 1)]
    exact sectionOps_getElem_heading sections i h
  · rw [show 6 + 5 * i + 3 = 6 + (5 * i + 3) from by omega,
      append_getElem_headerOps now (sectionOps sections) (5 * i + 3)]
    exact sectionOps_getElem_body sections i h

/-- Witness for C5: a one-section submission with a whitespace-only body. -/
theorem build_pdf_document_layout_witness :
    ((headerOps (Timestamp.mk 2025 3 7 9 5) ++
        sectionOps [(("T".toList), ("   ".toList))])[7]? =
      some (PdfOp.multiCell ("T".toList)))
    ∧ sectionBody ("   ".toList) = placeholderText :=
  ⟨(build_pdf_document_layout.2.1 [(("T".toList), ("   ".toList))]
      (Timestamp.mk 2025 3 7 9 5) 0 (by decide)).1,
   build_pdf_document_layout.2.2.1 ("   ".toList) (by decide)⟩

/-- C6: the render is deterministic — two invocations on equal section
sequences and equal timestamps produce equal traces (document-internal
metadata such as creation identifiers is outside the modelled trace). -/
theorem build_pdf_deterministic :
    ∀ (s1 s2 : List (List Char × List Char)) (t1 t2 : Timestamp),
      s1 = s2 → t1 = t2 →
      build_pdf_bytes true [] s1 t1 = build_pdf_bytes true [] s2 t2 := by
  intro s1 s2 t1 t2 hs ht
  rw [hs, ht]

/-- Witness for C6 at a concrete empty submission and fixed instant. -/
theorem build_pdf_deterministic_witness :
    build_pdf_bytes true [] [] (Timestamp.mk 2025 1 2 3 4) =
      build_pdf_bytes true [] [] (Timestamp.mk 2025 1 2 3 4) :=
  build_pdf_deterministic [] [] (Timestamp.mk 2025 1 2 3 4)
    (Timestamp.mk 2025 1 2 3 4) rfl rfl

/-- C8: with the font asset missing and no prior registration the render
aborts with a distinguishable fatal error (the swallowed registration failure
surfaces as `undefinedFont` at the first `set_font` call) rather than
producing a document; a benign duplicate registration is swallowed by the
guard and the render continues with the already-registered family; the normal
path succeeds. -/
theorem missing_font_fatal_duplicate_benign :
    ∀ (sections : List (List Char × List Char)) (now : Timestamp),
      build_pdf_bytes false [] sections now = Except.error PdfError.undefinedFont
      ∧ build_pdf_bytes true [dejavuName] sections now =
          Except.ok (headerOps now ++ sectionOps sections)
      ∧ build_pdf_bytes true [] sections now =
          Except.ok (headerOps now ++ sectionOps sections) := by
  intro sections now
  exact ⟨rfl, rfl, rfl⟩

/-- C9: the rewrap touches only section bodies — the heading call of every
section carries its title verbatim, and the fixed header block (centered
title line and timestamp line) is laid out exactly as given. -/
theorem rewrap_applies_only_to_bodies :
    ∀ (sections : List (List Char × List Char)) (now : Timestamp)
      (i : Nat) (h : i < sections.length),
      (headerOps now ++ sectionOps sections)[6 + 5 * i + 1]? =
        some (PdfOp.multiCell (sections[i].1))
      ∧ (headerOps now ++ sectionOps sections)[1]? =
          some (PdfOp.cellCentered titleText)
      ∧ (headerOps now ++ sectionOps sections)[4]? =
          some (PdfOp.cellLeft (generatedLabel ++ formatTimestamp now)) := by
  intro sections now i h
  refine ⟨?_, rfl, rfl⟩
  rw [show 6 + 5 * i + 1 = 6 + (5 * i + 1) from by omega,
    append_getElem_headerOps now (sectionOps sections) (5 * i + 1)]
  exact sectionOps_getElem_heading sections i h

/-- Witness for C9: a 100-character heading is laid out verbatim even though
the rewrap would alter a body of the same text. -/
theorem rewrap_applies_only_to_bodies_witness :
    ((headerOps (Timestamp.mk 2025 1 2 3 4) ++
        sectionOps [((List.replicate 100 'a'), ("x".toList))])[7]? =
      some (PdfOp.multiCell (List.replicate 100 'a')))
    ∧ break_long_tokens (some (List.replicate 100 'a')) 80 ≠
        List.replicate 100 'a' :=
  ⟨(rewrap_applies_only_to_bodies [((List.replicate 100 'a'), ("x".toList))]
      (Timestamp.mk 2025 1 2 3 4) 0 (by decide)).1,
   by decide⟩

end DMP
